import Mathlib

/-!
Shallow embedding of the digital-library content/author/category service layer
(`app/models.py`, `app/content_service.py`).

Machine representation choices:
* `datetime` values are abstract ticks (`Nat`); operations that stamp the
  current time (`utcnow`) take it as an explicit `now` argument.
* Each relational table is a list of row records; auto-increment primary keys
  are modelled by `next_*` counters carried in the store.
* Every service call is a function `DB → result × DB`: the call opens a scoped
  session, executes its statements, and the second component is the store
  visible to subsequent reads after the call returns.
-/

/-- `ContentType` enumeration (`app/models.py`), in declaration order:
book, article, magazine, multimedia. -/
inductive ContentType where
  | book
  | article
  | magazine
  | multimedia
deriving DecidableEq, Repr

/-- `ContentStatus` enumeration (`app/models.py`): available, checked_out,
reserved, maintenance. -/
inductive ContentStatus where
  | available
  | checked_out
  | reserved
  | maintenance
deriving DecidableEq, Repr

/-- A row of the `content` table (`app/models.py`, class `Content`).
String-length bounds are storage-level checks not exercised here. -/
structure Content where
  id : Nat
  title : String
  description : String
  content_type : ContentType
  status : ContentStatus
  isbn : Option String
  language : String
  publication_date : Option Nat
  created_at : Nat
  updated_at : Nat
  tags : List String
  content_metadata : List (String × String)
deriving DecidableEq, Repr

/-- A row of the `books` table (`app/models.py`, class `Book`):
the 1:1 extension of a book-typed `Content` row (`content_id` unique FK). -/
structure Book where
  id : Nat
  content_id : Nat
  page_count : Option Nat
  publisher : String
  edition : String
  format : String
deriving DecidableEq, Repr

/-- A row of the `articles` table (`app/models.py`, class `Article`). -/
structure Article where
  id : Nat
  content_id : Nat
  journal_name : String
  volume : Option String
  issue : Option String
  page_range : Option String
  doi : Option String
deriving DecidableEq, Repr

/-- A row of the `magazines` table (`app/models.py`, class `Magazine`). -/
structure Magazine where
  id : Nat
  content_id : Nat
  issue_number : String
  frequency : String
  publisher : String
deriving DecidableEq, Repr

/-- A row of the `multimedia` table (`app/models.py`, class `Multimedia`);
`file_size_mb` (a two-place decimal) is modelled as a rational. -/
structure Multimedia where
  id : Nat
  content_id : Nat
  media_type : String
  duration_minutes : Option Nat
  file_format : Option String
  file_size_mb : Option Rat
deriving DecidableEq, Repr

/-- A row of the `authors` table (`app/models.py`, class `Author`). -/
structure Author where
  id : Nat
  first_name : String
  last_name : String
  biography : String
  birth_date : Option Nat
  website : Option String
deriving DecidableEq, Repr

/-- A row of the `categories` table (`app/models.py`, class `Category`):
`name` unique, optional self-referencing `parent_id`. -/
structure Category where
  id : Nat
  name : String
  description : String
  parent_id : Option Nat
deriving DecidableEq, Repr

/-- A row of the `content_authors` junction table (`app/models.py`,
class `ContentAuthor`); primary key is the pair. -/
structure ContentAuthor where
  content_id : Nat
  author_id : Nat
deriving DecidableEq, Repr

/-- A row of the `content_categories` junction table (`app/models.py`,
class `ContentCategory`); primary key is the pair. -/
structure ContentCategory where
  content_id : Nat
  category_id : Nat
deriving DecidableEq, Repr

/-- Modelled from the spec: the Storage Gateway (`app/database.py`, whose
`get_session` is imported by `app/content_service.py` but absent from the
sources) provides scoped transactions over a durable relational store. `DB` is
the committed, durable state of that store: one list per table touched by the
services, plus auto-increment counters for the primary keys the services
generate. Committing inserts appends rows and checks storage-level
constraints (primary keys, unique columns, foreign keys), whose violation
surfaces as a storage error; rollback discards all statements of the
transaction that have not been committed. -/
structure DB where
  contents : List Content
  books : List Book
  articles : List Article
  magazines : List Magazine
  multimedia : List Multimedia
  authors : List Author
  categories : List Category
  content_authors : List ContentAuthor
  content_categories : List ContentCategory
  next_content_id : Nat
  next_book_id : Nat
deriving DecidableEq, Repr

/-- Boolean contiguous-sublist test on character lists, used to model the SQL
percent-pattern match. -/
def char_infix_of (pat l : List Char) : Bool :=
  match l with
  | [] => pat.isEmpty
  | _ :: rest => pat.isPrefixOf l || char_infix_of pat rest

/-- ASCII lower-casing of one character, the case folding SQL `ILIKE`
guarantees (and the one exercised by the repository's data). -/
def char_lower (c : Char) : Char :=
  if 65 ≤ c.toNat ∧ c.toNat ≤ 90 then Char.ofNat (c.toNat + 32) else c

/-- SQL `ILIKE` with the pattern built as percent-query-percent
(`content_service.py` lines 39-41): case-insensitive substring containment
of the query in the field. -/
def ilike_contains (field query : String) : Bool :=
  char_infix_of (query.toList.map char_lower) (field.toList.map char_lower)

/-- Ordering relation used by `ORDER BY content.created_at DESC`. -/
def created_desc (a b : Content) : Prop :=
  b.created_at ≤ a.created_at

instance : DecidableRel created_desc :=
  fun a b => Nat.decLe b.created_at a.created_at

instance : IsTotal Content created_desc :=
  ⟨fun a b => Nat.le_total b.created_at a.created_at⟩

instance : IsTrans Content created_desc :=
  ⟨fun _a _b _c hab hbc => Nat.le_trans hbc hab⟩

/-- Result rows of a statement ordered by `created_at` descending. The SQL
order among equal keys is unspecified; a stable sort fixes one choice. -/
def order_by_created_desc (l : List Content) : List Content :=
  List.insertionSort created_desc l

/-- Ordering relation for `ORDER BY authors.last_name, authors.first_name`. -/
def author_name_le (a b : Author) : Prop :=
  a.last_name < b.last_name ∨ (a.last_name = b.last_name ∧ a.first_name ≤ b.first_name)

instance : DecidableRel author_name_le :=
  fun a b => inferInstanceAs
    (Decidable (a.last_name < b.last_name ∨ (a.last_name = b.last_name ∧ a.first_name ≤ b.first_name)))

/-- Ordering relation for `ORDER BY categories.name`. -/
def category_name_le (a b : Category) : Prop :=
  a.name ≤ b.name

instance : DecidableRel category_name_le :=
  fun a b => inferInstanceAs (Decidable (a.name ≤ b.name))

/-- `ContentService.search_content` (`content_service.py` lines 29-56):
optional case-insensitive substring filter on title OR description (applied
only when the query string is non-empty, per Python truthiness), optional
exact `content_type` filter, optional `status == AVAILABLE` filter, ordered
by `created_at` descending, truncated to `limit`. A read: the store is
returned unchanged. -/
def search_content (db : DB) (query : String) (content_type : Option ContentType)
    (available_only : Bool) (limit : Nat) : List Content × DB :=
  let s1 := if query = "" then db.contents else
    db.contents.filter fun c => ilike_contains c.title query || ilike_contains c.description query
  let s2 := match content_type with
    | some t => s1.filter fun c => c.content_type == t
    | none => s1
  let s3 := if available_only then s2.filter (fun c => c.status == ContentStatus.available) else s2
  ((order_by_created_desc s3).take limit, db)

/-- `ContentService.get_content_by_id` (`content_service.py` lines 58-62):
`session.get(Content, content_id)`, a primary-key lookup. -/
def get_content_by_id (db : DB) (content_id : Nat) : Option Content × DB :=
  (db.contents.find? (fun c => c.id == content_id), db)

/-- `ContentService.get_books` (`content_service.py` lines 64-74):
contents filtered to `content_type == BOOK`, ordered by `created_at`
descending, truncated to `limit`. -/
def get_books (db : DB) (limit : Nat) : List Content × DB :=
  ((order_by_created_desc
    (db.contents.filter fun c => c.content_type == ContentType.book)).take limit, db)

/-- `ContentService.get_content_authors` (`content_service.py` lines 108-113):
`select(Author).join(ContentAuthor).where(ContentAuthor.content_id == id)`.
The inner join yields each author having a junction row for this content id;
the pair primary key admits at most one junction row per author, so the
result is modelled as the authors-table rows having such a junction row. -/
def get_content_authors (db : DB) (content_id : Nat) : List Author × DB :=
  (db.authors.filter fun a =>
    db.content_authors.any fun ca => ca.content_id == content_id && ca.author_id == a.id, db)

/-- `ContentService.get_content_categories` (`content_service.py` lines
115-120): the categories joined through `content_categories` for this id. -/
def get_content_categories (db : DB) (content_id : Nat) : List Category × DB :=
  (db.categories.filter fun c =>
    db.content_categories.any fun cc => cc.content_id == content_id && cc.category_id == c.id, db)

/-- The type-specific extension row attached to `extended_info` by
`get_content_with_details`: a tagged union over the four extension tables. -/
inductive ExtendedInfo where
  | book (b : Book)
  | article (a : Article)
  | magazine (m : Magazine)
  | multimedia (m : Multimedia)
deriving DecidableEq, Repr

/-- The dictionary returned by `ContentService.get_content_with_details`. -/
structure ContentDetails where
  content : Content
  authors : List Author
  categories : List Category
  extended_info : Option ExtendedInfo
deriving DecidableEq, Repr

/-- `ContentService.get_content_with_details` (`content_service.py` lines
76-106): absent when the base `Content` id does not exist; otherwise the
content with its authors, its categories, and the first extension row of the
table matching `content_type` (absent when no such row exists). -/
def get_content_with_details (db : DB) (content_id : Nat) : Option ContentDetails × DB :=
  match db.contents.find? (fun c => c.id == content_id) with
  | none => (none, db)
  | some content =>
    let ext : Option ExtendedInfo :=
      match content.content_type with
      | ContentType.book =>
        (db.books.find? (fun b => b.content_id == content_id)).map ExtendedInfo.book
      | ContentType.article =>
        (db.articles.find? (fun a => a.content_id == content_id)).map ExtendedInfo.article
      | ContentType.magazine =>
        (db.magazines.find? (fun m => m.content_id == content_id)).map ExtendedInfo.magazine
      | ContentType.multimedia =>
        (db.multimedia.find? (fun m => m.content_id == content_id)).map ExtendedInfo.multimedia
    (some { content := content
            authors := (get_content_authors db content_id).1
            categories := (get_content_categories db content_id).1
            extended_info := ext }, db)

/-- `ContentService.update_content_status` (`content_service.py` lines
166-178), write part: the row fetched by primary key (the first row with the
id) gets the new status and a fresh `updated_at`; every other row is left
untouched. -/
def set_status_first (l : List Content) (content_id : Nat) (status : ContentStatus)
    (now : Nat) : List Content :=
  match l with
  | [] => []
  | c :: rest =>
    if c.id == content_id then { c with status := status, updated_at := now } :: rest
    else c :: set_status_first rest content_id status now

/-- `ContentService.update_content_status` (`content_service.py` lines
166-178): `False` and no mutation when `session.get` finds no row for the id;
otherwise the row's status and `updated_at` are updated, committed, and
`True` is returned. -/
def update_content_status (db : DB) (content_id : Nat) (status : ContentStatus)
    (now : Nat) : Bool × DB :=
  match db.contents.find? (fun c => c.id == content_id) with
  | none => (false, db)
  | some _ =>
    (true, { db with contents := set_status_first db.contents content_id status now })

/-- Iteration order of `for content_type in ContentType` (`content_service.py`
line 185): the enum's declaration order. -/
def allContentTypes : List ContentType :=
  [ContentType.book, ContentType.article, ContentType.magazine, ContentType.multimedia]

/-- `ContentService.get_available_content_count` (`content_service.py` lines
180-191): one `COUNT` per enum member, keyed in iteration order, counting the
content rows of that type with status AVAILABLE (the `count or 0` fallback is
the identity here: the count is never `None`). -/
def get_available_content_count (db : DB) : List (ContentType × Nat) × DB :=
  (allContentTypes.map fun t =>
    (t, (db.contents.filter fun c =>
      c.content_type == t && c.status == ContentStatus.available).length), db)

/-- `ContentService.get_recent_content` (`content_service.py` lines 193-204):
contents with `created_at` at or after the cutoff `now - days` (the cutoff
arithmetic in abstract ticks, truncated at zero as `Nat` subtraction),
ordered by `created_at` descending, truncated to `limit`. -/
def get_recent_content (db : DB) (days : Nat) (limit : Nat) (now : Nat) :
    List Content × DB :=
  ((order_by_created_desc
    (db.contents.filter fun c => now - days ≤ c.created_at)).take limit, db)

/-- `AuthorService.get_all_authors` (`content_service.py` lines 210-215):
all authors ordered by (last_name, first_name). -/
def get_all_authors (db : DB) : List Author × DB :=
  (List.insertionSort author_name_le db.authors, db)

/-- `AuthorService.search_authors` (`content_service.py` lines 217-226):
case-insensitive substring match on first_name OR last_name, ordered by
(last_name, first_name). -/
def search_authors (db : DB) (query : String) : List Author × DB :=
  (List.insertionSort author_name_le
    (db.authors.filter fun a =>
      ilike_contains a.first_name query || ilike_contains a.last_name query), db)

/-- `CategoryService.get_all_categories` (`content_service.py` lines 250-255):
all categories ordered by name. -/
def get_all_categories (db : DB) : List Category × DB :=
  (List.insertionSort category_name_le db.categories, db)

/-- `CategoryService.get_root_categories` (`content_service.py` lines
257-262): categories with `parent_id IS NULL`, ordered by name. -/
def get_root_categories (db : DB) : List Category × DB :=
  (List.insertionSort category_name_le
    (db.categories.filter fun c => c.parent_id.isNone), db)

/-- Validation schema `ContentCreate` (`app/models.py`): the caller-supplied
fields of a new `Content` row. -/
structure ContentCreate where
  title : String
  description : String
  content_type : ContentType
  isbn : Option String
  language : String
  publication_date : Option Nat
  tags : List String
  content_metadata : List (String × String)
deriving DecidableEq, Repr

/-- Validation schema `BookCreate` (`app/models.py`): the caller-supplied
fields of a new `Book` extension row. -/
structure BookCreate where
  page_count : Option Nat
  publisher : String
  edition : String
  format : String
deriving DecidableEq, Repr

/-- `Content(**content_data.model_dump())` (`content_service.py` line 133):
a fresh row from the schema fields, with the model defaults
`status = AVAILABLE` and `created_at = updated_at = utcnow()`, and the
primary key the store assigns at commit. -/
def content_from_create (cd : ContentCreate) (id : Nat) (now : Nat) : Content :=
  { id := id
    title := cd.title
    description := cd.description
    content_type := cd.content_type
    status := ContentStatus.available
    isbn := cd.isbn
    language := cd.language
    publication_date := cd.publication_date
    created_at := now
    updated_at := now
    tags := cd.tags
    content_metadata := cd.content_metadata }

/-- Modelled from the spec: the constraint checks the missing Storage Gateway
(`app/database.py`) runs when the second transaction of `create_book`
commits its pending inserts (one `Book` row and the junction rows).
Per the spec, storage-level constraints are the unique foreign key on
`books.content_id`, the foreign keys of the junction rows (author and
category ids should reference existing rows, a foreign-key violation
surfacing as a storage error if not), and the composite primary keys of
the junction tables. -/
def create_book_commit_ok (db1 : DB) (book : Book) (ca : List ContentAuthor)
    (cc : List ContentCategory) : Bool :=
  (db1.books.all fun b => b.content_id != book.content_id) &&
  (ca.all fun r =>
    (db1.authors.any fun a => a.id == r.author_id) &&
    (db1.content_authors.all fun r0 =>
      !(r0.content_id == r.content_id && r0.author_id == r.author_id))) &&
  decide ((ca.map ContentAuthor.author_id).Nodup) &&
  (cc.all fun r =>
    (db1.categories.any fun c => c.id == r.category_id) &&
    (db1.content_categories.all fun r0 =>
      !(r0.content_id == r.content_id && r0.category_id == r.category_id))) &&
  decide ((cc.map ContentCategory.category_id).Nodup)

/-- `ContentService.create_book` (`content_service.py` lines 122-164).
The body runs two storage transactions inside one session:
1. lines 133-137: the `Content` row is built from `content_data`, its
   `content_type` overwritten with BOOK, then added and **committed**;
   `session.refresh` reloads the committed row, so its primary key is
   assigned and the defensive `content.id is None` early return
   (lines 139-140) is unreachable;
2. lines 142-158: the `Book` extension row and one junction row per
   supplied author id and category id are added and committed.
When the second commit violates a storage constraint, the except branch
(lines 162-164) rolls the session back — discarding only the still
uncommitted second transaction — and re-raises the storage error; the
`Content` row committed by step 1 stays. -/
def create_book (db : DB) (content_data : ContentCreate) (book_data : BookCreate)
    (author_ids : Option (List Nat)) (category_ids : Option (List Nat)) (now : Nat) :
    Except String (Option Content) × DB :=
  let newId := db.next_content_id
  let content := { content_from_create content_data newId now with
                   content_type := ContentType.book }
  let db1 : DB := { db with contents := db.contents ++ [content]
                            next_content_id := newId + 1 }
  let book : Book := { id := db1.next_book_id
                       content_id := newId
                       page_count := book_data.page_count
                       publisher := book_data.publisher
                       edition := book_data.edition
                       format := book_data.format }
  let ca := (author_ids.getD []).map fun a => ContentAuthor.mk newId a
  let cc := (category_ids.getD []).map fun c => ContentCategory.mk newId c
  if create_book_commit_ok db1 book ca cc then
    (Except.ok (some content),
     { db1 with books := db1.books ++ [book]
                next_book_id := db1.next_book_id + 1
                content_authors := db1.content_authors ++ ca
                content_categories := db1.content_categories ++ cc })
  else
    (Except.error "IntegrityError", db1)

/-- The `Content` row committed by step 1 of `create_book` (the schema fields
with `content_type` forced to BOOK); named for use in statements, definitionally
equal to the row built at `content_service.py` lines 133-134. -/
@[reducible] def new_content_row (cd : ContentCreate) (newId now : Nat) : Content :=
  { content_from_create cd newId now with content_type := ContentType.book }

/-- The `Book` extension row committed by step 2 of `create_book`
(`content_service.py` line 143). -/
@[reducible] def new_book_row (bd : BookCreate) (bookId newId : Nat) : Book :=
  { id := bookId, content_id := newId, page_count := bd.page_count,
    publisher := bd.publisher, edition := bd.edition, format := bd.format }

/-- The store after the first commit of `create_book` (the `Content` row is
durable, nothing else has changed). -/
@[reducible] def create_book_phase1_db (db : DB) (cd : ContentCreate) (now : Nat) : DB :=
  { db with
      contents := db.contents ++ [new_content_row cd db.next_content_id now],
      next_content_id := db.next_content_id + 1 }

/-! Concrete stores and inputs used to instantiate the theorems below. -/

/-- An empty store. -/
def db0 : DB :=
  { contents := [], books := [], articles := [], magazines := [], multimedia := [],
    authors := [], categories := [], content_authors := [], content_categories := [],
    next_content_id := 1, next_book_id := 1 }

/-- Content data for a plain book (note the supplied `content_type` is
deliberately not BOOK, to exercise the forced override). -/
def cd0 : ContentCreate :=
  { title := "Pride and Prejudice", description := "", content_type := ContentType.article,
    isbn := none, language := "English", publication_date := none, tags := [],
    content_metadata := [] }

/-- Book data for a plain book. -/
def bd0 : BookCreate :=
  { page_count := some 279, publisher := "T. Egerton", edition := "", format := "paperback" }

/-- An available book row titled in upper case. -/
def cPy : Content :=
  { id := 1, title := "PYTHON Programming", description := "", content_type := ContentType.book,
    status := ContentStatus.available, isbn := none, language := "English",
    publication_date := none, created_at := 5, updated_at := 5, tags := [],
    content_metadata := [] }

/-- A checked-out article row. -/
def cArt : Content :=
  { id := 2, title := "Old Article", description := "history", content_type := ContentType.article,
    status := ContentStatus.checked_out, isbn := none, language := "English",
    publication_date := none, created_at := 3, updated_at := 3, tags := [],
    content_metadata := [] }

/-- A store holding `cPy` and `cArt`. -/
def dbPy : DB :=
  { contents := [cPy, cArt], books := [], articles := [], magazines := [], multimedia := [],
    authors := [], categories := [], content_authors := [], content_categories := [],
    next_content_id := 3, next_book_id := 1 }

/-- Two authors. -/
def au1 : Author :=
  { id := 10, first_name := "Jane", last_name := "Austen", biography := "",
    birth_date := none, website := none }

/-- Second author fixture. -/
def au2 : Author :=
  { id := 20, first_name := "George", last_name := "Orwell", biography := "",
    birth_date := none, website := none }

/-- A root category. -/
def catFiction : Category :=
  { id := 5, name := "Fiction", description := "", parent_id := none }

/-- A child category. -/
def catRomance : Category :=
  { id := 6, name := "Romance", description := "", parent_id := some 5 }

/-- A store with reference data (two authors, two categories) and no content. -/
def dbW : DB :=
  { contents := [], books := [], articles := [], magazines := [], multimedia := [],
    authors := [au1, au2], categories := [catFiction, catRomance],
    content_authors := [], content_categories := [],
    next_content_id := 1, next_book_id := 1 }

/-- The row filter a `search_content` statement applies beyond the query:
the optional content-type filter and the availability filter. -/
def matches_other_filters (ct : Option ContentType) (avail : Bool) (c : Content) : Bool :=
  (match ct with
   | some t => c.content_type == t
   | none => true) &&
  (!avail || c.status == ContentStatus.available)

/-- The full row filter of a `search_content` statement: the case-insensitive
substring match (vacuous for the empty query) together with the other
filters. -/
def matches_search (q : String) (ct : Option ContentType) (avail : Bool) (c : Content) : Bool :=
  (q == "" || ilike_contains c.title q || ilike_contains c.description q) &&
  matches_other_filters ct avail c

/-- Case-insensitive substring hit on title or description, stated as the
specification reads. -/
def title_or_desc_ci (q : String) (c : Content) : Prop :=
  ilike_contains c.title q = true ∨ ilike_contains c.description q = true

/-! Helper lemmas. -/

/-- Mapping a key out of a filter on that key. -/
theorem map_filter_comm {α : Type} (f : α → Nat) (p : Nat → Bool) (l : List α) :
    (l.filter fun a => p (f a)).map f = (l.map f).filter p := by
  induction l with
  | nil => rfl
  | cons h t ih => by_cases hp : p (f h) <;> simp [hp, ih]

/-- Filtering a duplicate-free list of keys down to a duplicate-free sublist
of keys yields a permutation of those keys. -/
theorem filter_ids_perm_nat (l ids : List Nat) (hl : l.Nodup) (hids : ids.Nodup)
    (hsub : ∀ i ∈ ids, i ∈ l) :
    (l.filter fun x => ids.any fun i => i == x).Perm ids := by
  rw [List.perm_iff_count]
  intro a
  by_cases ha : a ∈ ids
  · have hpa : (fun x => ids.any fun i => i == x) a = true :=
      List.any_eq_true.mpr ⟨a, ha, beq_self_eq_true a⟩
    rw [@List.count_filter ℕ _ _ (fun x => ids.any fun i => i == x) a l hpa,
      List.count_eq_one_of_mem hl (hsub a ha), List.count_eq_one_of_mem hids ha]
  · rw [List.count_eq_zero_of_not_mem, List.count_eq_zero_of_not_mem ha]
    intro hmem
    have hpred := List.of_mem_filter hmem
    rw [List.any_eq_true] at hpred
    obtain ⟨i, hi, hia⟩ := hpred
    exact ha (eq_of_beq hia ▸ hi)

/-- `set_status_first` leaves the list length unchanged. -/
theorem set_status_first_length (l : List Content) (cid : Nat) (s : ContentStatus) (now : Nat) :
    (set_status_first l cid s now).length = l.length := by
  induction l with
  | nil => rfl
  | cons h t ih =>
    unfold set_status_first
    by_cases hh : (h.id == cid) = true <;> simp [hh, ih]

/-- A primary-key lookup after `set_status_first` returns the updated row. -/
theorem set_status_first_find (l : List Content) (cid : Nat) (s : ContentStatus) (now : Nat)
    (c : Content) (h : l.find? (fun x : Content => x.id == cid) = some c) :
    (set_status_first l cid s now).find? (fun x : Content => x.id == cid) =
      some { c with status := s, updated_at := now } := by
  induction l with
  | nil => simp at h
  | cons hd tl ih =>
    by_cases hhd : (hd.id == cid) = true
    · rw [@List.find?_cons_of_pos _ (fun x : Content => x.id == cid) hd tl hhd] at h
      injection h with h
      subst h
      unfold set_status_first
      rw [if_pos hhd]
      exact @List.find?_cons_of_pos _ (fun x : Content => x.id == cid) _ _ hhd
    · rw [@List.find?_cons_of_neg _ (fun x : Content => x.id == cid) hd tl hhd] at h
      unfold set_status_first
      rw [if_neg hhd]
      rw [@List.find?_cons_of_neg _ (fun x : Content => x.id == cid) hd _ hhd]
      exact ih h

/-- Rows whose id differs are untouched by `set_status_first`. -/
theorem set_status_first_filter_ne (l : List Content) (cid : Nat) (s : ContentStatus)
    (now : Nat) :
    (set_status_first l cid s now).filter (fun x => x.id != cid) =
      l.filter (fun x => x.id != cid) := by
  induction l with
  | nil => rfl
  | cons hd tl ih =>
    unfold set_status_first
    by_cases hhd : (hd.id == cid) = true
    · rw [if_pos hhd]
      have h1 : (({ hd with status := s, updated_at := now } : Content).id != cid) = false := by
        simp [bne, hhd]
      have h2 : (hd.id != cid) = false := by simp [bne, hhd]
      simp [List.filter_cons, h1, h2]
    · rw [if_neg hhd]
      have h2 : (hd.id != cid) = true := by simp [bne, hhd]
      simp [List.filter_cons, h2, ih]

/-- The three staged `WHERE` clauses of `search_content` collapse into one
row filter before ordering and truncation. -/
theorem search_content_eq_filter (db : DB) (q : String) (ct : Option ContentType)
    (avail : Bool) (lim : Nat) :
    (search_content db q ct avail lim).1 =
      (order_by_created_desc (db.contents.filter (matches_search q ct avail))).take lim := by
  unfold search_content
  by_cases hq : q = ""
  · subst hq
    cases ct <;> cases avail <;>
      simp only [if_pos rfl, List.filter_filter]
    · symm
      refine congrArg (List.take lim) (congrArg order_by_created_desc (List.filter_eq_self.mpr ?_))
      intro x hx
      simp [matches_search, matches_other_filters]
    · refine congrArg (List.take lim) (congrArg order_by_created_desc (List.filter_congr ?_))
      intro x hx
      simp [matches_search, matches_other_filters]
    · refine congrArg (List.take lim) (congrArg order_by_created_desc (List.filter_congr ?_))
      intro x hx
      simp [matches_search, matches_other_filters]
    · refine congrArg (List.take lim) (congrArg order_by_created_desc (List.filter_congr ?_))
      intro x hx
      simp [matches_search, matches_other_filters, Bool.and_comm]
  · have hqb : (q == "") = false := beq_eq_false_iff_ne.mpr hq
    rw [if_neg hq]
    cases ct <;> cases avail <;>
      simp only [List.filter_filter] <;>
      refine congrArg (List.take lim) (congrArg order_by_created_desc (List.filter_congr ?_)) <;>
      intro x hx <;>
      simp [matches_search, matches_other_filters, hqb, Bool.and_comm, Bool.and_left_comm,
        Bool.and_assoc]

/-- C4: for every store and filter choice, `search` returns a sequence
ordered by `created_at` descending and truncated to the given limit; with an
empty query it returns the most recent rows passing the other filters (the
browse path); and when no row matches it returns the empty sequence. -/
theorem search_content_order_limit_browse (db : DB) (q : String) (ct : Option ContentType)
    (avail : Bool) (lim : Nat) :
    List.Sorted created_desc (search_content db q ct avail lim).1 ∧
    (search_content db q ct avail lim).1.length ≤ lim ∧
    (q = "" → (search_content db q ct avail lim).1 =
      (order_by_created_desc (db.contents.filter (matches_other_filters ct avail))).take lim) ∧
    (db.contents.filter (matches_search q ct avail) = [] →
      (search_content db q ct avail lim).1 = []) := by
  refine ⟨?_, ?_, ?_, ?_⟩
  · rw [search_content_eq_filter]
    exact List.Pairwise.sublist (List.take_sublist _ _)
      (List.sorted_insertionSort created_desc _)
  · rw [search_content_eq_filter]
    exact List.length_take_le _ _
  · intro hq
    rw [search_content_eq_filter]
    have hfil : db.contents.filter (matches_search q ct avail) =
        db.contents.filter (matches_other_filters ct avail) := by
      refine List.filter_congr fun x hx => ?_
      subst hq
      simp [matches_search]
    rw [hfil]
  · intro h
    rw [search_content_eq_filter, h]
    simp [order_by_created_desc]

/-- Closed instance of `search_content_order_limit_browse`: the browse path on
a two-row store with limit 1, and the no-match path. -/
theorem search_content_order_limit_browse_witness :
    List.Sorted created_desc (search_content dbPy "" none true 1).1 ∧
    (search_content dbPy "" none true 1).1 =
      (order_by_created_desc (dbPy.contents.filter (matches_other_filters none true))).take 1 ∧
    (search_content dbPy "zzz" none true 50).1 = [] :=
  ⟨(search_content_order_limit_browse dbPy "" none true 1).1,
   (search_content_order_limit_browse dbPy "" none true 1).2.2.1 rfl,
   (search_content_order_limit_browse dbPy "zzz" none true 50).2.2.2 (by decide)⟩

/-- C5: for a non-empty query whose matches fit in the limit, `search`
returns exactly the content rows whose title or description contains the
query as a case-insensitive substring and which pass the other active
filters. -/
theorem search_content_ci (db : DB) (q : String) (ct : Option ContentType) (avail : Bool)
    (lim : Nat) (hq : q ≠ "")
    (hlim : (db.contents.filter (matches_search q ct avail)).length ≤ lim) :
    ((search_content db q ct avail lim).1.Perm
      (db.contents.filter (matches_search q ct avail))) ∧
    (∀ c, c ∈ (search_content db q ct avail lim).1 ↔
      (c ∈ db.contents ∧ title_or_desc_ci q c ∧ matches_other_filters ct avail c = true)) := by
  have hperm : (order_by_created_desc (db.contents.filter (matches_search q ct avail))).Perm
      (db.contents.filter (matches_search q ct avail)) := List.perm_insertionSort _ _
  have htake : (order_by_created_desc (db.contents.filter (matches_search q ct avail))).take lim
      = order_by_created_desc (db.contents.filter (matches_search q ct avail)) :=
    List.take_of_length_le (by rw [hperm.length_eq]; exact hlim)
  have hqb : (q == "") = false := beq_eq_false_iff_ne.mpr hq
  constructor
  · rw [search_content_eq_filter, htake]
    exact hperm
  · intro c
    rw [search_content_eq_filter, htake, hperm.mem_iff, List.mem_filter]
    constructor
    · rintro ⟨hmem, hmat⟩
      refine ⟨hmem, ?_, ?_⟩ <;>
        simp only [matches_search, hqb, Bool.false_or, Bool.and_eq_true,
          Bool.or_eq_true] at hmat
      · exact hmat.1
      · exact hmat.2
    · rintro ⟨hmem, hci, hoth⟩
      refine ⟨hmem, ?_⟩
      simp only [matches_search, hqb, Bool.false_or, Bool.and_eq_true, Bool.or_eq_true]
      exact ⟨hci, hoth⟩

/-- Closed instance of `search_content_ci`: the row titled in upper case
"PYTHON Programming" is returned for the lower-case query. -/
theorem search_content_ci_witness :
    ("python" ≠ "" ∧ (dbPy.contents.filter (matches_search "python" none true)).length ≤ 50) ∧
    (search_content dbPy "python" none true 50).1.Perm
      (dbPy.contents.filter (matches_search "python" none true)) ∧
    cPy ∈ (search_content dbPy "python" none true 50).1 :=
  ⟨⟨by decide, by decide⟩,
   (search_content_ci dbPy "python" none true 50 (by decide) (by decide)).1,
   by decide⟩

/-- C3: `updateStatus` returns false and leaves the store untouched when no
content row has the id; when a row exists it returns true, sets that row's
status and refreshes `updated_at` (observable through a subsequent
`getById`), and every other row, every other field, and every other table is
unchanged. -/
theorem update_content_status_spec (db : DB) (cid : Nat) (s : ContentStatus) (now : Nat) :
    (db.contents.find? (fun c => c.id == cid) = none →
      update_content_status db cid s now = (false, db)) ∧
    (∀ c, db.contents.find? (fun c => c.id == cid) = some c →
      (update_content_status db cid s now).1 = true ∧
      (get_content_by_id (update_content_status db cid s now).2 cid).1 =
        some { c with status := s, updated_at := now } ∧
      ((update_content_status db cid s now).2.contents.filter fun x => x.id != cid) =
        (db.contents.filter fun x => x.id != cid) ∧
      (update_content_status db cid s now).2.contents.length = db.contents.length ∧
      (update_content_status db cid s now).2.books = db.books ∧
      (update_content_status db cid s now).2.articles = db.articles ∧
      (update_content_status db cid s now).2.magazines = db.magazines ∧
      (update_content_status db cid s now).2.multimedia = db.multimedia ∧
      (update_content_status db cid s now).2.authors = db.authors ∧
      (update_content_status db cid s now).2.categories = db.categories ∧
      (update_content_status db cid s now).2.content_authors = db.content_authors ∧
      (update_content_status db cid s now).2.content_categories = db.content_categories) := by
  constructor
  · intro h
    unfold update_content_status
    rw [h]
  · intro c h
    unfold update_content_status get_content_by_id
    rw [h]
    exact ⟨rfl, set_status_first_find db.contents cid s now c h,
      set_status_first_filter_ne db.contents cid s now,
      set_status_first_length db.contents cid s now,
      rfl, rfl, rfl, rfl, rfl, rfl, rfl, rfl⟩

/-- Closed instance of `update_content_status_spec`: a miss on id 99 is a
no-op returning false; a hit on id 1 returns true and the new status is read
back. -/
theorem update_content_status_witness :
    (update_content_status dbPy 99 ContentStatus.reserved 7 = (false, dbPy)) ∧
    (update_content_status dbPy 1 ContentStatus.checked_out 7).1 = true ∧
    (get_content_by_id (update_content_status dbPy 1 ContentStatus.checked_out 7).2 1).1 =
      some { cPy with status := ContentStatus.checked_out, updated_at := 7 } :=
  ⟨(update_content_status_spec dbPy 99 ContentStatus.reserved 7).1 (by decide),
   ((update_content_status_spec dbPy 1 ContentStatus.checked_out 7).2 cPy (by decide)).1,
   ((update_content_status_spec dbPy 1 ContentStatus.checked_out 7).2 cPy (by decide)).2.1⟩

/-- C6: `countAvailableByType` keys exactly the four content types in enum
order, each mapped to the number of rows of that type with status AVAILABLE,
zero when no such row exists. -/
theorem get_available_content_count_spec (db : DB) :
    ((get_available_content_count db).1.map Prod.fst = allContentTypes) ∧
    (∀ t n, (t, n) ∈ (get_available_content_count db).1 →
      n = db.contents.countP fun c =>
        decide (c.content_type = t ∧ c.status = ContentStatus.available)) ∧
    (∀ t ∈ allContentTypes,
      (∀ c ∈ db.contents, ¬(c.content_type = t ∧ c.status = ContentStatus.available)) →
      (t, 0) ∈ (get_available_content_count db).1) := by
  have hfun : ∀ (t : ContentType) (c : Content),
      (c.content_type == t && c.status == ContentStatus.available)
        = decide (c.content_type = t ∧ c.status = ContentStatus.available) := by
    intro t c
    by_cases h1 : c.content_type = t <;> by_cases h2 : c.status = ContentStatus.available <;>
      simp [h1, h2]
  refine ⟨?_, ?_, ?_⟩
  · rfl
  · intro t n hmem
    unfold get_available_content_count at hmem
    simp only [List.mem_map] at hmem
    obtain ⟨t0, ht0, heq⟩ := hmem
    injection heq with h1 h2
    subst h1
    subst h2
    rw [List.countP_eq_length_filter]
    exact congrArg List.length (List.filter_congr fun c _ => hfun t0 c)
  · intro t ht hnone
    unfold get_available_content_count
    simp only [List.mem_map]
    refine ⟨t, ht, ?_⟩
    have hnil : db.contents.filter
        (fun c => c.content_type == t && c.status == ContentStatus.available) = [] := by
      refine List.filter_eq_nil_iff.mpr fun c hc => ?_
      rw [hfun t c]
      simpa using hnone c hc
    rw [hnil]
    rfl

/-- Closed instance of `get_available_content_count_spec` on a store with one
available book and one checked-out article. -/
theorem get_available_content_count_witness :
    ((get_available_content_count dbPy).1.map Prod.fst = allContentTypes) ∧
    ((ContentType.book, 1) ∈ (get_available_content_count dbPy).1 ∧
      1 = dbPy.contents.countP fun c =>
        decide (c.content_type = ContentType.book ∧ c.status = ContentStatus.available)) ∧
    (ContentType.magazine, 0) ∈ (get_available_content_count dbPy).1 :=
  ⟨(get_available_content_count_spec dbPy).1,
   ⟨by decide, (get_available_content_count_spec dbPy).2.1 ContentType.book 1 (by decide)⟩,
   (get_available_content_count_spec dbPy).2.2 ContentType.magazine (by decide) (by decide)⟩

/-- C8: `getRoots` returns exactly the categories whose `parent_id` is
absent, and never one whose `parent_id` is set. -/
theorem get_root_categories_spec (db : DB) :
    (get_root_categories db).1.Perm (db.categories.filter fun c => c.parent_id.isNone) ∧
    ∀ c ∈ (get_root_categories db).1, c.parent_id = none := by
  have hperm : (get_root_categories db).1.Perm
      (db.categories.filter fun c => c.parent_id.isNone) :=
    List.perm_insertionSort category_name_le _
  refine ⟨hperm, fun c hc => ?_⟩
  exact Option.isNone_iff_eq_none.mp
    (@List.of_mem_filter Category (fun x => x.parent_id.isNone) c db.categories
      (hperm.mem_iff.mp hc))

/-- Closed instance of `get_root_categories_spec`: the root category is
returned, the child category is not. -/
theorem get_root_categories_witness :
    (get_root_categories dbW).1.Perm (dbW.categories.filter fun c => c.parent_id.isNone) ∧
    catFiction ∈ (get_root_categories dbW).1 ∧
    catFiction.parent_id = none ∧
    catRomance ∉ (get_root_categories dbW).1 :=
  ⟨(get_root_categories_spec dbW).1, by decide,
   (get_root_categories_spec dbW).2 catFiction (by decide), by decide⟩

/-- C9: every read operation of the three services returns the store exactly
as it found it. -/
theorem read_operations_pure (db : DB) (q : String) (ct : Option ContentType) (avail : Bool)
    (lim cid days now : Nat) :
    (search_content db q ct avail lim).2 = db ∧
    (get_content_by_id db cid).2 = db ∧
    (get_books db lim).2 = db ∧
    (get_content_with_details db cid).2 = db ∧
    (get_content_authors db cid).2 = db ∧
    (get_content_categories db cid).2 = db ∧
    (get_available_content_count db).2 = db ∧
    (get_recent_content db days lim now).2 = db ∧
    (get_all_authors db).2 = db ∧
    (search_authors db q).2 = db ∧
    (get_all_categories db).2 = db ∧
    (get_root_categories db).2 = db := by
  refine ⟨rfl, rfl, rfl, ?_, rfl, rfl, rfl, rfl, rfl, rfl, rfl, rfl⟩
  unfold get_content_with_details
  cases db.contents.find? (fun c => c.id == cid) <;> rfl

/-- C10: with no junction row for an id (in particular for an id with no
content row at all), `getAuthorsFor` and `getCategoriesFor` return the empty
sequence. -/
theorem get_content_junctions_absent (db : DB) (cid : Nat)
    (ha : ∀ r ∈ db.content_authors, r.content_id ≠ cid)
    (hc : ∀ r ∈ db.content_categories, r.content_id ≠ cid) :
    (get_content_authors db cid).1 = [] ∧ (get_content_categories db cid).1 = [] := by
  constructor
  · unfold get_content_authors
    refine List.filter_eq_nil_iff.mpr fun a _ => ?_
    intro hany
    rw [List.any_eq_true] at hany
    obtain ⟨r, hr, hpred⟩ := hany
    simp only [Bool.and_eq_true, beq_iff_eq] at hpred
    exact ha r hr hpred.1
  · unfold get_content_categories
    refine List.filter_eq_nil_iff.mpr fun a _ => ?_
    intro hany
    rw [List.any_eq_true] at hany
    obtain ⟨r, hr, hpred⟩ := hany
    simp only [Bool.and_eq_true, beq_iff_eq] at hpred
    exact hc r hr hpred.1

/-- Closed instance of `get_content_junctions_absent` at an id with no
content row. -/
theorem get_content_junctions_absent_witness :
    ((∀ r ∈ dbW.content_authors, r.content_id ≠ 42) ∧
      (∀ r ∈ dbW.content_categories, r.content_id ≠ 42)) ∧
    (get_content_authors dbW 42).1 = [] ∧ (get_content_categories dbW 42).1 = [] :=
  ⟨⟨by decide, by decide⟩, get_content_junctions_absent dbW 42 (by decide) (by decide)⟩

/-- A `create_book` call either commits both transactions and returns the new
content row, or fails its second commit and leaves exactly the phase-1
store. -/
theorem create_book_cases (db : DB) (cd : ContentCreate) (bd : BookCreate)
    (aIds cIds : Option (List Nat)) (now : Nat) :
    create_book db cd bd aIds cIds now =
      (Except.ok (some (new_content_row cd db.next_content_id now)),
       { create_book_phase1_db db cd now with
          books := db.books ++ [new_book_row bd db.next_book_id db.next_content_id],
          next_book_id := db.next_book_id + 1,
          content_authors := db.content_authors ++
            ((aIds.getD []).map fun a => ContentAuthor.mk db.next_content_id a),
          content_categories := db.content_categories ++
            ((cIds.getD []).map fun c => ContentCategory.mk db.next_content_id c) }) ∨
    create_book db cd bd aIds cIds now =
      (Except.error "IntegrityError", create_book_phase1_db db cd now) := by
  unfold create_book
  simp only [Option.getD]
  split
  · left
    rfl
  · right
    rfl

theorem any_map_ca (ids : List Nat) (newId k : Nat) :
    ((ids.map fun i => ContentAuthor.mk newId i).any fun x =>
       x.content_id == newId && x.author_id == k) = ids.any fun i => i == k := by
  induction ids with
  | nil => rfl
  | cons h t ih => simp [ih]

theorem any_map_cc (ids : List Nat) (newId k : Nat) :
    ((ids.map fun i => ContentCategory.mk newId i).any fun x =>
       x.content_id == newId && x.category_id == k) = ids.any fun i => i == k := by
  induction ids with
  | nil => rfl
  | cons h t ih => simp [ih]

theorem commit_ok_of (db1 : DB) (book : Book) (aIds cIds : List Nat) (newId : Nat)
    (hb : ∀ b ∈ db1.books, b.content_id ≠ book.content_id)
    (hA : ∀ i ∈ aIds, i ∈ db1.authors.map Author.id)
    (hC : ∀ i ∈ cIds, i ∈ db1.categories.map Category.id)
    (hCA : ∀ r0 ∈ db1.content_authors, r0.content_id ≠ newId)
    (hCC : ∀ r0 ∈ db1.content_categories, r0.content_id ≠ newId)
    (hAn : aIds.Nodup) (hCn : cIds.Nodup) :
    create_book_commit_ok db1 book (aIds.map fun a => ContentAuthor.mk newId a)
      (cIds.map fun c => ContentCategory.mk newId c) = true := by
  unfold create_book_commit_ok
  simp only [Bool.and_eq_true, List.all_eq_true, List.any_eq_true, decide_eq_true_eq,
    List.mem_map, bne_iff_ne, ne_eq, beq_iff_eq, List.map_map]
  refine ⟨⟨⟨⟨?_, ?_⟩, ?_⟩, ?_⟩, ?_⟩
  · intro b hbmem
    exact hb b hbmem
  · rintro r ⟨i, hi, rfl⟩
    constructor
    · obtain ⟨a, ha, haid⟩ := List.mem_map.mp (hA i hi)
      exact ⟨a, ha, haid⟩
    · intro r0 hr0
      have hne : (r0.content_id == newId) = false := beq_eq_false_iff_ne.mpr (hCA r0 hr0)
      simp [hne]
  · have hmap : List.map (ContentAuthor.author_id ∘ fun a => ContentAuthor.mk newId a) aIds
        = aIds := by simp [Function.comp_def]
    rw [hmap]
    exact hAn
  · rintro r ⟨i, hi, rfl⟩
    constructor
    · obtain ⟨c, hcm, hcid⟩ := List.mem_map.mp (hC i hi)
      exact ⟨c, hcm, hcid⟩
    · intro r0 hr0
      have hne : (r0.content_id == newId) = false := beq_eq_false_iff_ne.mpr (hCC r0 hr0)
      simp [hne]
  · have hmap : List.map (ContentCategory.category_id ∘ fun c => ContentCategory.mk newId c) cIds
        = cIds := by simp [Function.comp_def]
    rw [hmap]
    exact hCn

theorem create_book_success_eq (db : DB) (cd : ContentCreate) (bd : BookCreate)
    (aIds cIds : List Nat) (now : Nat)
    (hok : create_book_commit_ok (create_book_phase1_db db cd now)
      (new_book_row bd db.next_book_id db.next_content_id)
      (aIds.map fun a => ContentAuthor.mk db.next_content_id a)
      (cIds.map fun c => ContentCategory.mk db.next_content_id c) = true) :
    create_book db cd bd (some aIds) (some cIds) now =
      (Except.ok (some (new_content_row cd db.next_content_id now)),
       { create_book_phase1_db db cd now with
          books := db.books ++ [new_book_row bd db.next_book_id db.next_content_id],
          next_book_id := db.next_book_id + 1,
          content_authors := db.content_authors ++
            (aIds.map fun a => ContentAuthor.mk db.next_content_id a),
          content_categories := db.content_categories ++
            (cIds.map fun c => ContentCategory.mk db.next_content_id c) }) := by
  unfold create_book
  simp only [Option.getD_some]
  rw [if_pos hok]

/-- C7: a successful `createBook` with N existing author ids and M existing
category ids creates exactly N author associations and M category
associations for the new content id, and `getAuthorsFor` / `getCategoriesFor`
return exactly those authors and categories. -/
theorem create_book_associations (db : DB) (cd : ContentCreate) (bd : BookCreate)
    (aIds cIds : List Nat) (now : Nat)
    (hAn : aIds.Nodup) (hCn : cIds.Nodup)
    (hA : ∀ i ∈ aIds, i ∈ db.authors.map Author.id)
    (hC : ∀ i ∈ cIds, i ∈ db.categories.map Category.id)
    (hAuN : (db.authors.map Author.id).Nodup)
    (hCaN : (db.categories.map Category.id).Nodup)
    (hfb : ∀ b ∈ db.books, b.content_id ≠ db.next_content_id)
    (hfca : ∀ r ∈ db.content_authors, r.content_id ≠ db.next_content_id)
    (hfcc : ∀ r ∈ db.content_categories, r.content_id ≠ db.next_content_id) :
    (∃ c, (create_book db cd bd (some aIds) (some cIds) now).1 = Except.ok (some c) ∧
      c.id = db.next_content_id) ∧
    ((create_book db cd bd (some aIds) (some cIds) now).2.content_authors.filter
      fun x => x.content_id == db.next_content_id).length = aIds.length ∧
    ((create_book db cd bd (some aIds) (some cIds) now).2.content_categories.filter
      fun x => x.content_id == db.next_content_id).length = cIds.length ∧
    ((get_content_authors (create_book db cd bd (some aIds) (some cIds) now).2
        db.next_content_id).1.map Author.id).Perm aIds ∧
    ((get_content_categories (create_book db cd bd (some aIds) (some cIds) now).2
        db.next_content_id).1.map Category.id).Perm cIds ∧
    (get_content_authors (create_book db cd bd (some aIds) (some cIds) now).2
        db.next_content_id).1.length = aIds.length ∧
    (get_content_categories (create_book db cd bd (some aIds) (some cIds) now).2
        db.next_content_id).1.length = cIds.length := by
  have hok := commit_ok_of (create_book_phase1_db db cd now)
    (new_book_row bd db.next_book_id db.next_content_id)
    aIds cIds db.next_content_id hfb hA hC hfca hfcc hAn hCn
  have hcaNil : db.content_authors.filter
      (fun x => x.content_id == db.next_content_id) = [] :=
    List.filter_eq_nil_iff.mpr fun r hr => by
      simp [beq_eq_false_iff_ne.mpr (hfca r hr)]
  have hccNil : db.content_categories.filter
      (fun x => x.content_id == db.next_content_id) = [] :=
    List.filter_eq_nil_iff.mpr fun r hr => by
      simp [beq_eq_false_iff_ne.mpr (hfcc r hr)]
  have hcaAll : (aIds.map fun a => ContentAuthor.mk db.next_content_id a).filter
      (fun x => x.content_id == db.next_content_id)
      = aIds.map fun a => ContentAuthor.mk db.next_content_id a :=
    List.filter_eq_self.mpr fun r hr => by
      obtain ⟨i, hi, rfl⟩ := List.mem_map.mp hr
      simp
  have hccAll : (cIds.map fun c => ContentCategory.mk db.next_content_id c).filter
      (fun x => x.content_id == db.next_content_id)
      = cIds.map fun c => ContentCategory.mk db.next_content_id c :=
    List.filter_eq_self.mpr fun r hr => by
      obtain ⟨i, hi, rfl⟩ := List.mem_map.mp hr
      simp
  have h2 : ((db.content_authors ++
      (aIds.map fun a => ContentAuthor.mk db.next_content_id a)).filter
      fun x => x.content_id == db.next_content_id).length = aIds.length := by
    rw [List.filter_append, hcaNil, hcaAll]
    simp
  have h3 : ((db.content_categories ++
      (cIds.map fun c => ContentCategory.mk db.next_content_id c)).filter
      fun x => x.content_id == db.next_content_id).length = cIds.length := by
    rw [List.filter_append, hccNil, hccAll]
    simp
  have hptA : ∀ a ∈ db.authors,
      ((db.content_authors ++ (aIds.map fun i => ContentAuthor.mk db.next_content_id i)).any
        fun ca => ca.content_id == db.next_content_id && ca.author_id == a.id)
      = aIds.any fun i => i == a.id := by
    intro a _
    rw [List.any_append, any_map_ca]
    have hfalse : (db.content_authors.any
        fun ca => ca.content_id == db.next_content_id && ca.author_id == a.id) = false := by
      rw [List.any_eq_false]
      intro r hr
      simp [beq_eq_false_iff_ne.mpr (hfca r hr)]
    rw [hfalse, Bool.false_or]
  have hptC : ∀ c ∈ db.categories,
      ((db.content_categories ++ (cIds.map fun i => ContentCategory.mk db.next_content_id i)).any
        fun cc => cc.content_id == db.next_content_id && cc.category_id == c.id)
      = cIds.any fun i => i == c.id := by
    intro c _
    rw [List.any_append, any_map_cc]
    have hfalse : (db.content_categories.any
        fun cc => cc.content_id == db.next_content_id && cc.category_id == c.id) = false := by
      rw [List.any_eq_false]
      intro r hr
      simp [beq_eq_false_iff_ne.mpr (hfcc r hr)]
    rw [hfalse, Bool.false_or]
  have h4 : ((db.authors.filter fun a =>
      (db.content_authors ++ (aIds.map fun i => ContentAuthor.mk db.next_content_id i)).any
        fun ca => ca.content_id == db.next_content_id && ca.author_id == a.id).map
          Author.id).Perm aIds := by
    rw [List.filter_congr hptA,
      map_filter_comm Author.id (fun x => aIds.any fun i => i == x) db.authors]
    exact filter_ids_perm_nat (db.authors.map Author.id) aIds hAuN hAn hA
  have h5 : ((db.categories.filter fun c =>
      (db.content_categories ++ (cIds.map fun i => ContentCategory.mk db.next_content_id i)).any
        fun cc => cc.content_id == db.next_content_id && cc.category_id == c.id).map
          Category.id).Perm cIds := by
    rw [List.filter_congr hptC,
      map_filter_comm Category.id (fun x => cIds.any fun i => i == x) db.categories]
    exact filter_ids_perm_nat (db.categories.map Category.id) cIds hCaN hCn hC
  have h6 : (db.authors.filter fun a =>
      (db.content_authors ++ (aIds.map fun i => ContentAuthor.mk db.next_content_id i)).any
        fun ca => ca.content_id == db.next_content_id && ca.author_id == a.id).length
      = aIds.length := by
    rw [← List.length_map _ Author.id]
    exact h4.length_eq
  have h7 : (db.categories.filter fun c =>
      (db.content_categories ++ (cIds.map fun i => ContentCategory.mk db.next_content_id i)).any
        fun cc => cc.content_id == db.next_content_id && cc.category_id == c.id).length
      = cIds.length := by
    rw [← List.length_map _ Category.id]
    exact h5.length_eq
  rw [create_book_success_eq db cd bd aIds cIds now hok]
  exact ⟨⟨new_content_row cd db.next_content_id now, rfl, rfl⟩, h2, h3, h4, h5, h6, h7⟩

theorem get_content_with_details_book (db : DB) (cid : Nat) (c : Content) (b : Book)
    (hfind : db.contents.find? (fun x => x.id == cid) = some c)
    (htype : c.content_type = ContentType.book)
    (hfindb : db.books.find? (fun x => x.content_id == cid) = some b) :
    (get_content_with_details db cid).1 =
      some { content := c, authors := (get_content_authors db cid).1,
             categories := (get_content_categories db cid).1,
             extended_info := some (ExtendedInfo.book b) } := by
  simp [get_content_with_details, hfind, htype, hfindb]

theorem find?_append_singleton_isSome (l : List Content) (x : Content) (p : Content → Bool)
    (hp : p x = true) : ((l ++ [x]).find? p).isSome = true := by
  rw [List.find?_append]
  cases hfo : l.find? p
  · rw [Option.none_or, @List.find?_cons_of_pos _ p x [] hp]
    rfl
  · rfl

/-- C2: every content row returned by a successful `createBook` is stored
with `content_type` BOOK whatever type the caller supplied, exactly one
`Book` extension row references its id, and `getWithDetails` on that id is
non-absent with that row as its `extendedInfo`. -/
theorem create_book_book_invariant (db : DB) (cd : ContentCreate) (bd : BookCreate)
    (aIds cIds : Option (List Nat)) (now : Nat) (c : Content)
    (hfreshC : ∀ x ∈ db.contents, x.id ≠ db.next_content_id)
    (hfreshB : ∀ b ∈ db.books, b.content_id ≠ db.next_content_id)
    (hok : (create_book db cd bd aIds cIds now).1 = Except.ok (some c)) :
    c.content_type = ContentType.book ∧
    c.id = db.next_content_id ∧
    (∃ b : Book,
      ((create_book db cd bd aIds cIds now).2.books.filter
        fun x => x.content_id == c.id) = [b] ∧
      ∃ d : ContentDetails,
        (get_content_with_details (create_book db cd bd aIds cIds now).2 c.id).1 = some d ∧
        d.extended_info = some (ExtendedInfo.book b)) := by
  rcases create_book_cases db cd bd aIds cIds now with heq | heq
  case inr =>
    rw [heq] at hok
    exact absurd hok (by simp)
  case inl =>
    rw [heq] at hok
    replace hok : (Except.ok (some (new_content_row cd db.next_content_id now)) :
        Except String (Option Content)) = Except.ok (some c) := hok
    have hc : c = new_content_row cd db.next_content_id now :=
      (Option.some.inj (Except.ok.inj hok)).symm
    subst hc
    have hfindC : (db.contents ++ [new_content_row cd db.next_content_id now]).find?
        (fun x => x.id == db.next_content_id) =
        some (new_content_row cd db.next_content_id now) := by
      rw [List.find?_append]
      have hnone : db.contents.find? (fun x => x.id == db.next_content_id) = none :=
        List.find?_eq_none.mpr fun x hx => by
          simp [beq_eq_false_iff_ne.mpr (hfreshC x hx)]
      rw [hnone, Option.none_or]
      exact @List.find?_cons_of_pos _ (fun x : Content => x.id == db.next_content_id) _ []
        (by simp [new_content_row, content_from_create])
    have hbnone : db.books.find? (fun x => x.content_id == db.next_content_id) = none :=
      List.find?_eq_none.mpr fun x hx => by
        simp [beq_eq_false_iff_ne.mpr (hfreshB x hx)]
    have hfindB : (db.books ++ [new_book_row bd db.next_book_id db.next_content_id]).find?
        (fun x => x.content_id == db.next_content_id) =
        some (new_book_row bd db.next_book_id db.next_content_id) := by
      rw [List.find?_append, hbnone, Option.none_or]
      exact @List.find?_cons_of_pos _ (fun x : Book => x.content_id == db.next_content_id) _ []
        (by simp [new_book_row])
    have hfilB : (db.books ++ [new_book_row bd db.next_book_id db.next_content_id]).filter
        (fun x => x.content_id == db.next_content_id) =
        [new_book_row bd db.next_book_id db.next_content_id] := by
      rw [List.filter_append]
      have hnil : db.books.filter (fun x => x.content_id == db.next_content_id) = [] :=
        List.filter_eq_nil_iff.mpr fun x hx => by
          simp [beq_eq_false_iff_ne.mpr (hfreshB x hx)]
      rw [hnil]
      simp [new_book_row]
    rw [heq]
    refine ⟨rfl, rfl, ⟨new_book_row bd db.next_book_id db.next_content_id, hfilB, ?_⟩⟩
    exact ⟨_, get_content_with_details_book _ db.next_content_id _ _ hfindC rfl hfindB, rfl⟩

/-- C1 (amended): when the second transaction of `createBook` fails, its
`Book` row and junction rows are rolled back and the original error is
surfaced, but the `Content` row committed by the first transaction persists
and stays visible to subsequent reads. -/
theorem create_book_failure_partial (db : DB) (cd : ContentCreate) (bd : BookCreate)
    (aIds cIds : Option (List Nat)) (now : Nat) (e : String)
    (h : (create_book db cd bd aIds cIds now).1 = Except.error e) :
    (create_book db cd bd aIds cIds now).2 = create_book_phase1_db db cd now ∧
    (create_book_phase1_db db cd now).books = db.books ∧
    (create_book_phase1_db db cd now).content_authors = db.content_authors ∧
    (create_book_phase1_db db cd now).content_categories = db.content_categories ∧
    (create_book_phase1_db db cd now).contents =
      db.contents ++ [new_content_row cd db.next_content_id now] ∧
    (get_content_by_id (create_book db cd bd aIds cIds now).2
      db.next_content_id).1.isSome = true := by
  rcases create_book_cases db cd bd aIds cIds now with heq | heq
  case inl =>
    rw [heq] at h
    exact absurd h (by simp)
  case inr =>
    rw [heq]
    refine ⟨rfl, rfl, rfl, rfl, rfl, ?_⟩
    exact find?_append_singleton_isSome db.contents
      (new_content_row cd db.next_content_id now)
      (fun x => x.id == db.next_content_id)
      (by simp [new_content_row, content_from_create])

/-- C1 counterexample: a `createBook` call whose junction insert fails (the
supplied author id 1 references no author row) surfaces the storage error,
yet the `Content` row is visible to a subsequent `getById`: partial state
persists, contradicting the claim that none does. -/
theorem create_book_rollback_counterexample :
    (create_book db0 cd0 bd0 (some [1]) none 0).1 = Except.error "IntegrityError" ∧
    (get_content_by_id (create_book db0 cd0 bd0 (some [1]) none 0).2 1).1 =
      some (new_content_row cd0 1 0) := by
  constructor
  · rfl
  · rfl

/-- Closed instance of `create_book_failure_partial` at the failing call. -/
theorem create_book_failure_partial_witness :
    (create_book db0 cd0 bd0 (some [1]) none 0).2 = create_book_phase1_db db0 cd0 0 ∧
    (create_book_phase1_db db0 cd0 0).books = db0.books ∧
    (create_book_phase1_db db0 cd0 0).content_authors = db0.content_authors ∧
    (create_book_phase1_db db0 cd0 0).content_categories = db0.content_categories ∧
    (create_book_phase1_db db0 cd0 0).contents =
      db0.contents ++ [new_content_row cd0 db0.next_content_id 0] ∧
    (get_content_by_id (create_book db0 cd0 bd0 (some [1]) none 0).2
      db0.next_content_id).1.isSome = true :=
  create_book_failure_partial db0 cd0 bd0 (some [1]) none 0 "IntegrityError" rfl

/-- Closed instance of `create_book_book_invariant`: the supplied
`content_type` ARTICLE is overridden to BOOK and `getWithDetails` returns the
single extension row. -/
theorem create_book_book_invariant_witness :
    (new_content_row cd0 1 9).content_type = ContentType.book ∧
    (new_content_row cd0 1 9).id = dbW.next_content_id ∧
    (∃ b : Book,
      ((create_book dbW cd0 bd0 (some [10]) (some [5]) 9).2.books.filter
        fun x => x.content_id == (new_content_row cd0 1 9).id) = [b] ∧
      ∃ d : ContentDetails,
        (get_content_with_details (create_book dbW cd0 bd0 (some [10]) (some [5]) 9).2
          (new_content_row cd0 1 9).id).1 = some d ∧
        d.extended_info = some (ExtendedInfo.book b)) :=
  create_book_book_invariant dbW cd0 bd0 (some [10]) (some [5]) 9
    (new_content_row cd0 1 9) (by decide) (by decide) rfl

/-- Closed instance of `create_book_associations`: two authors and one
category attached at creation are read back exactly. -/
theorem create_book_associations_witness :
    (∃ c, (create_book dbW cd0 bd0 (some [10, 20]) (some [5]) 9).1 = Except.ok (some c) ∧
      c.id = dbW.next_content_id) ∧
    ((create_book dbW cd0 bd0 (some [10, 20]) (some [5]) 9).2.content_authors.filter
      fun x => x.content_id == dbW.next_content_id).length = 2 ∧
    ((get_content_authors (create_book dbW cd0 bd0 (some [10, 20]) (some [5]) 9).2
        dbW.next_content_id).1.map Author.id).Perm [10, 20] ∧
    (get_content_authors (create_book dbW cd0 bd0 (some [10, 20]) (some [5]) 9).2
        dbW.next_content_id).1.length = 2 ∧
    (get_content_categories (create_book dbW cd0 bd0 (some [10, 20]) (some [5]) 9).2
        dbW.next_content_id).1.length = 1 :=
  ⟨(create_book_associations dbW cd0 bd0 [10, 20] [5] 9 (by decide) (by decide) (by decide)
      (by decide) (by decide) (by decide) (by decide) (by decide) (by decide)).1,
   (create_book_associations dbW cd0 bd0 [10, 20] [5] 9 (by decide) (by decide) (by decide)
      (by decide) (by decide) (by decide) (by decide) (by decide) (by decide)).2.1,
   (create_book_associations dbW cd0 bd0 [10, 20] [5] 9 (by decide) (by decide) (by decide)
      (by decide) (by decide) (by decide) (by decide) (by decide) (by decide)).2.2.2.1,
   (create_book_associations dbW cd0 bd0 [10, 20] [5] 9 (by decide) (by decide) (by decide)
      (by decide) (by decide) (by decide) (by decide) (by decide) (by decide)).2.2.2.2.2.1,
   (create_book_associations dbW cd0 bd0 [10, 20] [5] 9 (by decide) (by decide) (by decide)
      (by decide) (by decide) (by decide) (by decide) (by decide) (by decide)).2.2.2.2.2.2⟩
